import Mathlib

/-!
Verification of the graph-description-to-diagram conversion implemented by
`GraphBuilder.convert_json_to_graphviz` in
`scrapegraphai/builders/graph_builder.py`.

The Python function walks an untyped JSON-like structure (dictionaries,
lists, strings, numbers, None) and populates a `graphviz.Digraph` through
two drawing operations: `graph.node` (with an optional distinguished shape
for the entry point) and `graph.edge`.  We embed the JSON-like values as
the inductive type `PyVal`, the fallible dictionary/list accesses as
`Except`-valued functions mirroring Python's KeyError / IndexError /
TypeError / AttributeError behaviour, and the drawable graph as a record
accumulating the sequence of `add_node` / `add_edge` calls in order.
-/

namespace GraphBuilder

/-- JSON-like Python values as they occur in the graph configuration:
strings, integers, booleans, None, lists and (string-keyed) dictionaries.
Dictionaries are insertion-ordered association lists with unique keys,
matching dictionaries decoded from JSON. -/
inductive PyVal where
  | str (s : String)
  | int (n : Int)
  | bool (b : Bool)
  | null
  | list (xs : List PyVal)
  | dict (kvs : List (String × PyVal))

mutual

/-- Python structural equality on JSON-like values, as used by the
comparison at line 167 of the source. Values of different shapes compare
unequal; in particular None compares unequal to every string.  (Python
compares dictionaries disregarding key order and admits cross-type numeric
equalities such as True == 1; neither refinement is exercised by the code
under verification, whose comparisons involve only strings and None.) -/
def PyVal.beq : PyVal → PyVal → Bool
  | .str a, .str b => a == b
  | .int a, .int b => a == b
  | .bool a, .bool b => a == b
  | .null, .null => true
  | .list xs, .list ys => PyVal.beqList xs ys
  | .dict xs, .dict ys => PyVal.beqDict xs ys
  | _, _ => false
termination_by structural a => a

/-- Pointwise equality of Python lists. -/
def PyVal.beqList : List PyVal → List PyVal → Bool
  | [], [] => true
  | x :: xs, y :: ys => PyVal.beq x y && PyVal.beqList xs ys
  | _, _ => false
termination_by structural a => a

/-- Pointwise equality of Python dictionaries (in insertion order). -/
def PyVal.beqDict : List (String × PyVal) → List (String × PyVal) → Bool
  | [], [] => true
  | (k, v) :: xs, (l, w) :: ys => k == l && PyVal.beq v w && PyVal.beqDict xs ys
  | _, _ => false
termination_by structural a => a

end

/-- Exceptions the traversal can raise: KeyError (carrying the missing
key), IndexError, TypeError (subscripting or iterating a non-subscriptable
value), AttributeError (calling .get on a non-dictionary). -/
inductive PyErr where
  | keyError (k : PyVal)
  | indexError
  | typeError
  | attributeError

/-- Python subscript `d[k]` with a string key: on a dictionary, the value
under the key or KeyError; on any other value, TypeError. -/
def PyVal.getItem : PyVal → String → Except PyErr PyVal
  | .dict kvs, k =>
      match kvs.lookup k with
      | some v => .ok v
      | none => .error (.keyError (.str k))
  | _, _ => .error .typeError

/-- Python subscript `v[i]` with an integer index: on a list, the element
or IndexError; on a string, the one-character substring or IndexError; on
a dictionary, KeyError (the integer is not among the string keys); on any
other value, TypeError. -/
def PyVal.getIdx : PyVal → Nat → Except PyErr PyVal
  | .list xs, i =>
      match xs.get? i with
      | some v => .ok v
      | none => .error .indexError
  | .str s, i =>
      match s.toList.get? i with
      | some c => .ok (.str (String.mk [c]))
      | none => .error .indexError
  | .dict _, i => .error (.keyError (.int i))
  | _, _ => .error .typeError

/-- Python `d.get(k, default)`: on a dictionary, the value under the key or
the default, never an error; on any other value, AttributeError. -/
def PyVal.get : PyVal → String → PyVal → Except PyErr PyVal
  | .dict kvs, k, d => .ok ((kvs.lookup k).getD d)
  | _, _, _ => .error .attributeError

/-- Python iteration `for x in v`: lists yield their elements, strings
their one-character substrings, dictionaries their keys; other values
raise TypeError. -/
def PyVal.toIter : PyVal → Except PyErr (List PyVal)
  | .list xs => .ok xs
  | .str s => .ok (s.toList.map (fun c => .str (String.mk [c])))
  | .dict kvs => .ok (kvs.map (fun kv => .str kv.1))
  | _ => .error .typeError

/-- The drawable graph object built by the function: the output format
selector plus the sequences of add_node and add_edge calls received, in
call order.  An add_node call records the name argument and whether the
distinguished entry-point shape (shape="doublecircle") was requested; an
add_edge call records the tail and head arguments.  The constant cosmetic
attributes passed to the graphviz.Digraph constructor (comment text,
default node colour and fill style) are presentation constants not
modelled. -/
structure Digraph where
  format : String
  nodeCalls : List (PyVal × Bool)
  edgeCalls : List (PyVal × PyVal)

/-- Abstract add_node: append one node-drawing call. -/
def Digraph.node (g : Digraph) (name : PyVal) (highlighted : Bool) : Digraph :=
  { g with nodeCalls := g.nodeCalls ++ [(name, highlighted)] }

/-- Abstract add_edge: append one edge-drawing call. -/
def Digraph.edge (g : Digraph) (f t : PyVal) : Digraph :=
  { g with edgeCalls := g.edgeCalls ++ [(f, t)] }

/-- Body of the node loop (source lines 166-170): look up the node's
node_name (KeyError if absent, TypeError if the element is not a
dictionary), compare it with the entry point using Python equality, and
draw it with the doublecircle shape exactly when they are equal.  (The
source subscripts node twice - once in the comparison and once in the
drawing call - which yields the same value both times, so one lookup is
recorded.) -/
def processNode (entry_point : PyVal) (graph : Digraph) (node : PyVal) :
    Except PyErr Digraph := do
  let name ← node.getItem "node_name"
  if PyVal.beq name entry_point then
    return graph.node name true
  else
    return graph.node name false

/-- Body of the inner fan-out loop (source lines 174-175): one
add_edge(edge["from"], to_node) per target, re-reading edge["from"] on
each iteration as the source does. -/
def edgeLoop (edge : PyVal) (graph : Digraph) (to_nodes : List PyVal) :
    Except PyErr Digraph :=
  to_nodes.foldlM
    (fun g to_node => do
      let f ← edge.getItem "from"
      return g.edge f to_node)
    graph

/-- Body of the edge loop (source lines 172-177): evaluate edge["to"]
first (for the isinstance test); when it is a list, fan out one add_edge
per target; otherwise emit the single add_edge(edge["from"], edge["to"]),
with "from" evaluated before "to" as in the source call. -/
def processEdge (graph : Digraph) (edge : PyVal) : Except PyErr Digraph := do
  let toVal ← edge.getItem "to"
  match toVal with
  | .list to_nodes => edgeLoop edge graph to_nodes
  | _ => do
      let f ← edge.getItem "from"
      let t ← edge.getItem "to"
      return graph.edge f t

/-- Embedding of the static method convert_json_to_graphviz (source lines
134-179): create the empty drawable graph for the requested format, unwrap
json_data["text"][0], read nodes, edges and entry_point with .get and
their defaults, then run the node loop followed by the edge loop. -/
def convert_json_to_graphviz (json_data : PyVal) (format : String := "pdf") :
    Except PyErr Digraph := do
  let graph : Digraph := { format := format, nodeCalls := [], edgeCalls := [] }
  let text ← json_data.getItem "text"
  let graph_config ← text.getIdx 0
  let nodes ← graph_config.get "nodes" (.list [])
  let edges ← graph_config.get "edges" (.list [])
  let entry_point ← graph_config.get "entry_point" .null
  let nodeItems ← nodes.toIter
  let graph ← nodeItems.foldlM (processNode entry_point) graph
  let edgeItems ← edges.toIter
  let graph ← edgeItems.foldlM processEdge graph
  return graph

/-- Wrap a graph configuration the way the LLM chain output wraps it:
under key "text", first element of a one-element list. -/
def wrapConfig (cfg : PyVal) : PyVal :=
  .dict [("text", .list [cfg])]

/-- A node dictionary carrying just the field the conversion reads. -/
def mkNode (name : String) : PyVal :=
  .dict [("node_name", .str name)]

/-- An edge dictionary with a single (string) target. -/
def mkEdge (f t : String) : PyVal :=
  .dict [("from", .str f), ("to", .str t)]

/-- A complete wrapped input: node names ns in order, single-target edges
ps in order, entry point ep. -/
def mkInput (ns : List String) (ps : List (String × String)) (ep : String) : PyVal :=
  wrapConfig (.dict
    [("nodes", .list (ns.map mkNode)),
     ("edges", .list (ps.map (fun p => mkEdge p.1 p.2))),
     ("entry_point", .str ep)])

/-- A wrapped input whose configuration has no entry_point key at all. -/
def mkInputNoEntry (ns : List String) (ps : List (String × String)) : PyVal :=
  wrapConfig (.dict
    [("nodes", .list (ns.map mkNode)),
     ("edges", .list (ps.map (fun p => mkEdge p.1 p.2)))])

/-- Expected expansion of one edge dictionary into drawn edges: a list
target fans out to one drawn edge per element in order, any other target
value yields the single drawn edge. -/
def edgeTargets (fv tv : PyVal) : List (PyVal × PyVal) :=
  match tv with
  | .list ts => ts.map (fun t => (fv, t))
  | _ => [(fv, tv)]

/-- Drawn edges contributed by one edge dictionary (junk-free only when
both fields are present). -/
def edgeCallsOf (e : PyVal) : List (PyVal × PyVal) :=
  match e.getItem "from", e.getItem "to" with
  | .ok fv, .ok tv => edgeTargets fv tv
  | _, _ => []

/-- Python equality of two strings is string equality. -/
theorem beq_str (a b : String) : PyVal.beq (.str a) (.str b) = (a == b) := rfl

/-- Python equality never identifies a string with None. -/
theorem beq_str_null (a : String) : PyVal.beq (.str a) .null = false := rfl

/-- Unfolding of the conversion on a wrapped configuration dictionary: the
unwrap and the three .get reads succeed, leaving the node loop over the
nodes value (default empty list) against the entry_point value (default
None), then the edge loop over the edges value (default empty list). -/
theorem convert_wrapConfig (fields : List (String × PyVal)) (f : String) :
    convert_json_to_graphviz (wrapConfig (.dict fields)) f = do
      let nodeItems ← ((fields.lookup "nodes").getD (.list [])).toIter
      let graph ← nodeItems.foldlM
        (processNode ((fields.lookup "entry_point").getD .null))
        (Digraph.mk f [] [])
      let edgeItems ← ((fields.lookup "edges").getD (.list [])).toIter
      let graph ← edgeItems.foldlM processEdge graph
      return graph := rfl

/-- Running the node loop over nodes whose node_name fields are the given
strings, in order: one add_node per node in order, highlighted exactly
when Python equality relates the name to the entry point. -/
theorem foldlM_processNode (ep : PyVal) {vs : List PyVal} {names : List String}
    (h : List.Forall₂ (fun v n => v.getItem "node_name" = Except.ok (.str n)) vs names) :
    ∀ g : Digraph,
      vs.foldlM (processNode ep) g =
        .ok { g with nodeCalls :=
                g.nodeCalls ++ names.map (fun n => (PyVal.str n, PyVal.beq (.str n) ep)) } := by
  induction h with
  | nil => intro g; rw [List.map_nil, List.append_nil]; rfl
  | @cons v n vs' names' hvn htail ih =>
      intro g
      simp only [List.foldlM, processNode, hvn, bind, Except.bind]
      cases hb : PyVal.beq (.str n) ep <;>
        simp [hb, ih, Digraph.node, List.append_assoc, pure, Except.pure]

/-- Running the inner fan-out loop when the edge's from field holds fv:
one add_edge (fv, target) per target, in order. -/
theorem edgeLoop_eq (e fv : PyVal) (hf : e.getItem "from" = .ok fv) :
    ∀ (ts : List PyVal) (g : Digraph),
    edgeLoop e g ts = .ok { g with edgeCalls := g.edgeCalls ++ ts.map (fun t => (fv, t)) } := by
  intro ts
  induction ts with
  | nil => intro g; rw [List.map_nil, List.append_nil]; rfl
  | cons t ts ih =>
      intro g
      have step : edgeLoop e g (t :: ts) = edgeLoop e (g.edge fv t) ts := by
        simp [edgeLoop, List.foldlM, hf, bind, Except.bind, pure, Except.pure]
      rw [step, ih]
      simp [Digraph.edge, List.append_assoc]

/-- Processing one edge whose from and to fields are present appends
exactly its expansion: the fan-out per target for a list, the single
drawn edge otherwise. -/
theorem processEdge_eq (e fv tv : PyVal)
    (hf : e.getItem "from" = .ok fv) (ht : e.getItem "to" = .ok tv) (g : Digraph) :
    processEdge g e = .ok { g with edgeCalls := g.edgeCalls ++ edgeTargets fv tv } := by
  cases tv <;>
    simp [processEdge, ht, hf, edgeTargets, edgeLoop_eq e fv hf, Digraph.edge,
      bind, Except.bind, pure, Except.pure]

/-- Running the edge loop over edges whose from and to fields are present:
the drawn edges are the concatenation of the per-edge expansions, in
sequence order. -/
theorem foldlM_processEdge :
    ∀ (es : List PyVal),
      (∀ e ∈ es, ∃ fv tv, e.getItem "from" = Except.ok fv ∧ e.getItem "to" = Except.ok tv) →
      ∀ g : Digraph,
      es.foldlM processEdge g =
        .ok { g with edgeCalls := g.edgeCalls ++ es.flatMap edgeCallsOf } := by
  intro es
  induction es with
  | nil => intro _ g; rw [List.flatMap_nil, List.append_nil]; rfl
  | cons e es ih =>
      intro h g
      obtain ⟨fv, tv, hf, ht⟩ := h e (List.mem_cons_self e es)
      have hexp : edgeCallsOf e = edgeTargets fv tv := by
        simp [edgeCallsOf, hf, ht]
      simp only [List.foldlM, processEdge_eq e fv tv hf ht, bind, Except.bind]
      simp [ih (fun e' he' => h e' (List.mem_cons_of_mem _ he')), hexp,
        List.flatMap_cons, List.append_assoc]

/-- Per-edge expansions of single-target edges built by mkEdge. -/
theorem flatMap_edgeCallsOf (ps : List (String × String)) :
    (ps.map (fun p => mkEdge p.1 p.2)).flatMap edgeCallsOf
      = ps.map (fun p => (PyVal.str p.1, PyVal.str p.2)) := by
  induction ps with
  | nil => rfl
  | cons p ps ih =>
      rw [List.map_cons, List.flatMap_cons, ih]
      rfl

/-- Full run on a well-shaped single-target-edge input: the function never
fails, draws each node once in order (highlighted exactly when its name
equals the entry point string) and each edge once in order, whether or not
the names referenced by edges or by the entry point exist among the nodes,
and whether or not node names repeat. -/
theorem convert_mkInput (ns : List String) (ps : List (String × String)) (ep f : String) :
    convert_json_to_graphviz (mkInput ns ps ep) f =
      .ok { format := f,
            nodeCalls := ns.map (fun n => (PyVal.str n, n == ep)),
            edgeCalls := ps.map (fun p => (PyVal.str p.1, PyVal.str p.2)) } := by
  have hnodes : List.Forall₂ (fun v n => PyVal.getItem v "node_name" = Except.ok (.str n))
      (ns.map mkNode) ns := by
    induction ns with
    | nil => exact .nil
    | cons n t ih => exact .cons rfl ih
  have hedges : ∀ e ∈ ps.map (fun p => mkEdge p.1 p.2),
      ∃ fv tv, PyVal.getItem e "from" = Except.ok fv ∧ PyVal.getItem e "to" = Except.ok tv := by
    intro e he
    obtain ⟨p, hp, rfl⟩ := List.mem_map.mp he
    exact ⟨.str p.1, .str p.2, rfl, rfl⟩
  have h1 : convert_json_to_graphviz (mkInput ns ps ep) f = (do
      let g ← (ns.map mkNode).foldlM (processNode (.str ep)) (Digraph.mk f [] [])
      let g ← (ps.map (fun p => mkEdge p.1 p.2)).foldlM processEdge g
      return g) := rfl
  rw [h1, foldlM_processNode (.str ep) hnodes]
  simp only [bind, Except.bind, List.nil_append]
  rw [foldlM_processEdge _ hedges]
  simp only [beq_str, flatMap_edgeCallsOf, List.nil_append]
  rfl

/-- Key fact for the uniqueness of the highlighted node: filtering the
drawn node calls of a duplicate-free name list containing the entry point
down to the highlighted ones leaves exactly the entry point's call. -/
theorem filter_highlight (ep : String) :
    ∀ ns : List String, ns.Nodup → ep ∈ ns →
    (ns.map (fun n => (PyVal.str n, n == ep))).filter (fun c => c.2) = [(PyVal.str ep, true)] := by
  intro ns
  induction ns with
  | nil => intro _ h; cases h
  | cons n t ih =>
      intro hnd hmem
      rw [List.map_cons, List.filter_cons]
      by_cases hn : n = ep
      · subst hn
        have hrest : (t.map (fun m => (PyVal.str m, m == n))).filter (fun c => c.2) = [] := by
          rw [List.filter_eq_nil_iff]
          intro c hc
          obtain ⟨m, hm, rfl⟩ := List.mem_map.mp hc
          have : m ≠ n := fun h => (List.nodup_cons.mp hnd).1 (h ▸ hm)
          simp [this]
        simp [hrest]
      · have hmem' : ep ∈ t := by
          cases List.mem_cons.mp hmem with
          | inl h => exact absurd h.symm hn
          | inr h => exact h
        have : (n == ep) = false := by simp [hn]
        simp only [this]
        simpa using ih (List.nodup_cons.mp hnd).2 hmem'

/-- When the entry point string is not among the node names, every drawn
node is unhighlighted. -/
theorem map_no_highlight {ep : String} {ns : List String} (h : ep ∉ ns) :
    ns.map (fun n => (PyVal.str n, n == ep)) = ns.map (fun n => (PyVal.str n, false)) := by
  apply List.map_congr_left
  intro n hn
  have hne : n ≠ ep := fun he => h (he ▸ hn)
  simp [hne]

/-- Full run on a well-shaped input with no entry_point key: the .get
default substitutes None for the entry point, None equals no string node
name, so the conversion succeeds with every node unhighlighted and every
edge drawn. -/
theorem convert_mkInputNoEntry (ns : List String) (ps : List (String × String)) :
    convert_json_to_graphviz (mkInputNoEntry ns ps) =
      .ok { format := "pdf",
            nodeCalls := ns.map (fun n => (PyVal.str n, false)),
            edgeCalls := ps.map (fun p => (PyVal.str p.1, PyVal.str p.2)) } := by
  have hnodes : List.Forall₂ (fun v n => PyVal.getItem v "node_name" = Except.ok (.str n))
      (ns.map mkNode) ns := by
    induction ns with
    | nil => exact .nil
    | cons n t ih => exact .cons rfl ih
  have hedges : ∀ e ∈ ps.map (fun p => mkEdge p.1 p.2),
      ∃ fv tv, PyVal.getItem e "from" = Except.ok fv ∧ PyVal.getItem e "to" = Except.ok tv := by
    intro e he
    obtain ⟨p, hp, rfl⟩ := List.mem_map.mp he
    exact ⟨.str p.1, .str p.2, rfl, rfl⟩
  have h1 : convert_json_to_graphviz (mkInputNoEntry ns ps) = (do
      let g ← (ns.map mkNode).foldlM (processNode .null) (Digraph.mk "pdf" [] [])
      let g ← (ps.map (fun p => mkEdge p.1 p.2)).foldlM processEdge g
      return g) := rfl
  rw [h1, foldlM_processNode .null hnodes]
  simp only [bind, Except.bind, List.nil_append]
  rw [foldlM_processEdge _ hedges]
  simp only [beq_str_null, flatMap_edgeCallsOf, List.nil_append]
  rfl

/-- Claim C1: for every valid graph description (unique node names, entry point naming exactly
one node), rendering calls add_node exactly once per node, in the insertion order of the
description, and exactly one of those calls is highlighted (drawn with the distinct entry-point
shape), namely the node whose name equals the entry point; every other node gets the uniform
default style. -/
theorem c1_nodes_drawn_once_entry_highlighted
    (ns : List String) (ps : List (String × String)) (ep : String)
    (hnodup : ns.Nodup) (hmem : ep ∈ ns) :
    convert_json_to_graphviz (mkInput ns ps ep) =
      .ok { format := "pdf",
            nodeCalls := ns.map (fun n => (PyVal.str n, n == ep)),
            edgeCalls := ps.map (fun p => (PyVal.str p.1, PyVal.str p.2)) } ∧
    (ns.map (fun n => (PyVal.str n, n == ep))).map Prod.fst = ns.map PyVal.str ∧
    (ns.map (fun n => (PyVal.str n, n == ep))).filter (fun c => c.2)
      = [(PyVal.str ep, true)] := by
  refine ⟨convert_mkInput ns ps ep "pdf", ?_, filter_highlight ep ns hnodup hmem⟩
  simp [List.map_map, Function.comp]

/-- Witness for C1 at the two-node scenario from the spec. -/
theorem c1_witness :
    convert_json_to_graphviz (mkInput ["fetch", "parse"] [("fetch", "parse")] "fetch") =
      .ok { format := "pdf",
            nodeCalls := ["fetch", "parse"].map (fun n => (PyVal.str n, n == "fetch")),
            edgeCalls := [("fetch", "parse")].map (fun p => (PyVal.str p.1, PyVal.str p.2)) } ∧
    (["fetch", "parse"].map (fun n => (PyVal.str n, n == "fetch"))).map Prod.fst
      = ["fetch", "parse"].map PyVal.str ∧
    (["fetch", "parse"].map (fun n => (PyVal.str n, n == "fetch"))).filter (fun c => c.2)
      = [(PyVal.str "fetch", true)] :=
  c1_nodes_drawn_once_entry_highlighted ["fetch", "parse"] [("fetch", "parse")] "fetch"
    (by decide) (by decide)

/-- Claim C2: for every edge, processed in sequence order: a to field holding a single value
yields exactly one add_edge(from, to) call; a to field holding a list of k targets yields
exactly k add_edge(from, target) calls, one per target, preserving the list's order; and a
sequence of edges contributes its per-edge expansions concatenated in sequence order. -/
theorem c2_edge_fanout (g : Digraph) (e fv : PyVal) (hf : e.getItem "from" = Except.ok fv) :
    (∀ ts, e.getItem "to" = Except.ok (.list ts) →
      processEdge g e = .ok { g with edgeCalls := g.edgeCalls ++ ts.map (fun t => (fv, t)) }) ∧
    (∀ tv, e.getItem "to" = Except.ok tv → (∀ ts, tv ≠ PyVal.list ts) →
      processEdge g e = .ok { g with edgeCalls := g.edgeCalls ++ [(fv, tv)] }) ∧
    (∀ (es : List PyVal) (g0 : Digraph),
      (∀ e' ∈ es, ∃ fv' tv',
        e'.getItem "from" = Except.ok fv' ∧ e'.getItem "to" = Except.ok tv') →
      es.foldlM processEdge g0 =
        .ok { g0 with edgeCalls := g0.edgeCalls ++ es.flatMap edgeCallsOf }) := by
  refine ⟨?_, ?_, fun es g0 h => foldlM_processEdge es h g0⟩
  · intro ts ht
    have h := processEdge_eq e fv (.list ts) hf ht g
    simpa [edgeTargets] using h
  · intro tv ht hnl
    have h := processEdge_eq e fv tv hf ht g
    have htv : edgeTargets fv tv = [(fv, tv)] := by
      cases tv <;> first | rfl | exact absurd rfl (hnl _)
    rwa [htv] at h

/-- Witness for C2: the fan-out edge fetch to [parse, store] yields the two drawn edges in
order; the single edge fetch to parse yields one; a one-edge sequence appends its expansion. -/
theorem c2_witness :
    processEdge (Digraph.mk "pdf" [] [])
        (.dict [("from", .str "fetch"), ("to", .list [.str "parse", .str "store"])]) =
      .ok (Digraph.mk "pdf" []
        [(PyVal.str "fetch", PyVal.str "parse"), (PyVal.str "fetch", PyVal.str "store")]) ∧
    processEdge (Digraph.mk "pdf" [] [])
        (.dict [("from", .str "fetch"), ("to", .str "parse")]) =
      .ok (Digraph.mk "pdf" [] [(PyVal.str "fetch", PyVal.str "parse")]) ∧
    [PyVal.dict [("from", .str "fetch"), ("to", .str "parse")]].foldlM processEdge
        (Digraph.mk "pdf" [] []) =
      .ok (Digraph.mk "pdf" [] [(PyVal.str "fetch", PyVal.str "parse")]) :=
  ⟨(c2_edge_fanout (Digraph.mk "pdf" [] [])
      (.dict [("from", .str "fetch"), ("to", .list [.str "parse", .str "store"])])
      (.str "fetch") rfl).1 [.str "parse", .str "store"] rfl,
   (c2_edge_fanout (Digraph.mk "pdf" [] [])
      (.dict [("from", .str "fetch"), ("to", .str "parse")])
      (.str "fetch") rfl).2.1 (.str "parse") rfl (fun _ h => PyVal.noConfusion h),
   (c2_edge_fanout (Digraph.mk "pdf" [] [])
      (.dict [("from", .str "fetch"), ("to", .str "parse")])
      (.str "fetch") rfl).2.2 [.dict [("from", .str "fetch"), ("to", .str "parse")]]
      (Digraph.mk "pdf" [] [])
      (fun e' he' => by
        rw [List.mem_singleton] at he'
        subst he'
        exact ⟨.str "fetch", .str "parse", rfl, rfl⟩)⟩

/-- Claim C3: the function evaluates json_data["text"][0] before reading nodes, edges or
entry_point: a mapping without the "text" key fails with KeyError - including an input shaped
exactly as the documented nodes/edges/entry_point contract without the "text" wrapper - and a
mapping whose "text" value is an empty list fails with IndexError; in both cases the error
result carries no drawable graph, so no node or edge call was emitted. -/
theorem c3_text_unwrapped_first (kvs : List (String × PyVal)) (f : String) :
    (kvs.lookup "text" = none →
      convert_json_to_graphviz (.dict kvs) f = .error (.keyError (.str "text"))) ∧
    (kvs.lookup "text" = some (.list []) →
      convert_json_to_graphviz (.dict kvs) f = .error .indexError) := by
  constructor
  · intro h
    simp [convert_json_to_graphviz, PyVal.getItem, h, bind, Except.bind]
  · intro h
    simp [convert_json_to_graphviz, PyVal.getItem, PyVal.getIdx, h, bind, Except.bind]

/-- Witness for C3: the documented contract shape without the "text" wrapper raises KeyError;
a "text" key holding an empty list raises IndexError. -/
theorem c3_witness :
    convert_json_to_graphviz (.dict
        [("nodes", .list []), ("edges", .list []), ("entry_point", .str "fetch")]) "pdf"
      = .error (.keyError (.str "text")) ∧
    convert_json_to_graphviz (.dict [("text", .list [])]) "pdf" = .error .indexError :=
  ⟨(c3_text_unwrapped_first
      [("nodes", .list []), ("edges", .list []), ("entry_point", .str "fetch")] "pdf").1 rfl,
   (c3_text_unwrapped_first [("text", .list [])] "pdf").2 rfl⟩

/-- Counterexample to claim C4 as stated: a raw input whose configuration has no entry_point
field does not make the code fail - no MissingEntryPoint (or any other) error is produced;
the conversion succeeds and returns a drawable graph object. -/
theorem c4_counterexample :
    convert_json_to_graphviz (wrapConfig (.dict
        [("nodes", .list [mkNode "fetch"]), ("edges", .list [])])) =
      .ok (Digraph.mk "pdf" [(PyVal.str "fetch", false)] []) := rfl

/-- Claim C4 amended: on raw inputs whose entry_point field is absent, or present as an empty
string while no node bears the empty name, the code does not fail and returns a complete graph
object; the absent field is replaced by None, which equals no string node name, so every node
is drawn unhighlighted. -/
theorem c4_amended (ns : List String) (ps : List (String × String)) (hempty : "" ∉ ns) :
    convert_json_to_graphviz (mkInputNoEntry ns ps) =
      .ok { format := "pdf",
            nodeCalls := ns.map (fun n => (PyVal.str n, false)),
            edgeCalls := ps.map (fun p => (PyVal.str p.1, PyVal.str p.2)) } ∧
    convert_json_to_graphviz (mkInput ns ps "") =
      .ok { format := "pdf",
            nodeCalls := ns.map (fun n => (PyVal.str n, false)),
            edgeCalls := ps.map (fun p => (PyVal.str p.1, PyVal.str p.2)) } :=
  ⟨convert_mkInputNoEntry ns ps, by rw [convert_mkInput, map_no_highlight hempty]⟩

/-- Witness for C4 amended at a one-node input. -/
theorem c4_witness :
    convert_json_to_graphviz (mkInputNoEntry ["fetch"] []) =
      .ok { format := "pdf",
            nodeCalls := ["fetch"].map (fun n => (PyVal.str n, false)),
            edgeCalls := ([] : List (String × String)).map
              (fun p => (PyVal.str p.1, PyVal.str p.2)) } ∧
    convert_json_to_graphviz (mkInput ["fetch"] [] "") =
      .ok { format := "pdf",
            nodeCalls := ["fetch"].map (fun n => (PyVal.str n, false)),
            edgeCalls := ([] : List (String × String)).map
              (fun p => (PyVal.str p.1, PyVal.str p.2)) } :=
  c4_amended ["fetch"] [] (by decide)

/-- Counterexample to claim C5 as stated: an edge whose to field names the node ghost, absent
from nodes, does not make validation fail - no UnknownNodeReference (or any other) error is
produced; the conversion succeeds and even draws the dangling edge. -/
theorem c5_counterexample :
    convert_json_to_graphviz (mkInput ["fetch"] [("fetch", "ghost")] "fetch") =
      .ok (Digraph.mk "pdf" [(PyVal.str "fetch", true)]
        [(PyVal.str "fetch", PyVal.str "ghost")]) := rfl

/-- Claim C5 amended: an edge whose from or to field names a node absent from nodes is not
rejected: no error naming the offending node is raised, the conversion succeeds, and the
add_edge call carrying the dangling reference is emitted as-is. -/
theorem c5_amended (ns : List String) (ps : List (String × String)) (ep : String)
    (p : String × String) (hp : p ∈ ps) (habsent : p.1 ∉ ns ∨ p.2 ∉ ns) :
    convert_json_to_graphviz (mkInput ns ps ep) =
      .ok { format := "pdf",
            nodeCalls := ns.map (fun n => (PyVal.str n, n == ep)),
            edgeCalls := ps.map (fun q => (PyVal.str q.1, PyVal.str q.2)) } ∧
    (PyVal.str p.1, PyVal.str p.2) ∈ ps.map (fun q => (PyVal.str q.1, PyVal.str q.2)) :=
  ⟨convert_mkInput ns ps ep "pdf", List.mem_map.mpr ⟨p, hp, rfl⟩⟩

/-- Witness for C5 amended at the fetch-to-ghost input. -/
theorem c5_witness :
    convert_json_to_graphviz (mkInput ["fetch"] [("fetch", "ghost")] "fetch") =
      .ok { format := "pdf",
            nodeCalls := ["fetch"].map (fun n => (PyVal.str n, n == "fetch")),
            edgeCalls := [("fetch", "ghost")].map
              (fun q => (PyVal.str q.1, PyVal.str q.2)) } ∧
    (PyVal.str "fetch", PyVal.str "ghost") ∈
      [("fetch", "ghost")].map (fun q => (PyVal.str q.1, PyVal.str q.2)) :=
  c5_amended ["fetch"] [("fetch", "ghost")] "fetch" ("fetch", "ghost")
    (by decide) (Or.inr (by decide))

/-- Counterexample to claim C6 as stated: an edge whose to field is the number 5 - neither a
string nor a sequence of strings - is not rejected with MalformedEdge; the edge is processed
and add_edge(from, 5) is emitted. -/
theorem c6_counterexample :
    convert_json_to_graphviz (wrapConfig (.dict
        [("nodes", .list []),
         ("edges", .list [.dict [("from", .str "a"), ("to", .int 5)]]),
         ("entry_point", .str "a")])) =
      .ok (Digraph.mk "pdf" [] [(PyVal.str "a", PyVal.int 5)]) := rfl

/-- Claim C6 amended: an edge whose to field is neither a string nor a sequence is not rejected
- the isinstance test only separates lists from everything else, so any non-list to value
(number, None, boolean or dictionary alike) takes the single-target branch and exactly one
add_edge(from, to) call carrying the raw value is emitted. -/
theorem c6_amended (g : Digraph) (e fv tv : PyVal)
    (hf : e.getItem "from" = Except.ok fv) (ht : e.getItem "to" = Except.ok tv)
    (hnl : ∀ ts, tv ≠ PyVal.list ts) :
    processEdge g e = .ok { g with edgeCalls := g.edgeCalls ++ [(fv, tv)] } := by
  have h := processEdge_eq e fv tv hf ht g
  have htv : edgeTargets fv tv = [(fv, tv)] := by
    cases tv <;> first | rfl | exact absurd rfl (hnl _)
  rwa [htv] at h

/-- Witness for C6 amended at the numeric-target edge. -/
theorem c6_witness :
    processEdge (Digraph.mk "pdf" [] []) (.dict [("from", .str "a"), ("to", .int 5)]) =
      .ok (Digraph.mk "pdf" [] [(PyVal.str "a", PyVal.int 5)]) :=
  c6_amended (Digraph.mk "pdf" [] []) (.dict [("from", .str "a"), ("to", .int 5)])
    (.str "a") (.int 5) rfl rfl (fun _ h => PyVal.noConfusion h)

/-- Counterexample to claim C7 as stated: the entry point ghost, absent from nodes, triggers
neither UnknownNodeReference nor MissingEntryPoint - the conversion succeeds rather than
failing, returning a graph with the single node fetch unhighlighted. -/
theorem c7_counterexample :
    convert_json_to_graphviz (mkInput ["fetch"] [] "ghost") =
      .ok (Digraph.mk "pdf" [(PyVal.str "fetch", false)] []) := rfl

/-- Claim C7 amended: an entry_point naming a node absent from nodes triggers no error of any
kind; the conversion succeeds and simply highlights no node (the comparison fails on every
drawn node). -/
theorem c7_amended (ns : List String) (ps : List (String × String)) (ep : String)
    (h : ep ∉ ns) :
    convert_json_to_graphviz (mkInput ns ps ep) =
      .ok { format := "pdf",
            nodeCalls := ns.map (fun n => (PyVal.str n, false)),
            edgeCalls := ps.map (fun p => (PyVal.str p.1, PyVal.str p.2)) } := by
  rw [convert_mkInput, map_no_highlight h]

/-- Witness for C7 amended at the ghost entry point. -/
theorem c7_witness :
    convert_json_to_graphviz (mkInput ["fetch"] [] "ghost") =
      .ok { format := "pdf",
            nodeCalls := ["fetch"].map (fun n => (PyVal.str n, false)),
            edgeCalls := ([] : List (String × String)).map
              (fun p => (PyVal.str p.1, PyVal.str p.2)) } :=
  c7_amended ["fetch"] [] "ghost" (by decide)

/-- Claim C8: rendering performs no validation and raises no domain-specific validation error
of its own: for every well-shaped description - whatever names its edges or its entry point
reference, present among the nodes or not, and whether or not node names repeat - the
conversion proceeds to a successful drawable graph; UnknownNodeReference, DuplicateNodeName,
MissingEntryPoint and MalformedEdge are not in its error repertoire (the PyErr type) and are
never signalled. -/
theorem c8_no_validation (ns : List String) (ps : List (String × String)) (ep f : String) :
    convert_json_to_graphviz (mkInput ns ps ep) f =
      .ok { format := f,
            nodeCalls := ns.map (fun n => (PyVal.str n, n == ep)),
            edgeCalls := ps.map (fun p => (PyVal.str p.1, PyVal.str p.2)) } :=
  convert_mkInput ns ps ep f

/-- Claim C9: the conversion is deterministic and side-effect free: it is a pure total function
of its input value and format selector, so two applications to structurally equal raw inputs
yield structurally equal results; PyVal inputs are immutable values, so the input structure is
unchanged by the call. -/
theorem c9_deterministic (j1 j2 : PyVal) (f1 f2 : String) (hj : j1 = j2) (hf : f1 = f2) :
    convert_json_to_graphviz j1 f1 = convert_json_to_graphviz j2 f2 := by
  rw [hj, hf]

/-- Witness for C9: two runs on the same one-node input agree. -/
theorem c9_witness :
    convert_json_to_graphviz (mkInput ["fetch"] [] "fetch") "pdf" =
      convert_json_to_graphviz (mkInput ["fetch"] [] "fetch") "pdf" :=
  c9_deterministic (mkInput ["fetch"] [] "fetch") (mkInput ["fetch"] [] "fetch")
    "pdf" "pdf" rfl rfl

/-- Claim C10: missing keys in the unwrapped configuration are defaulted, not errors: a
configuration without the nodes key behaves exactly as one whose nodes is the empty list,
likewise for edges, and one without the entry_point key behaves exactly as one whose
entry_point is None; with all three keys absent the conversion returns the empty graph without
raising, and with entry_point absent (string node names) the conversion succeeds with no node
drawn in the highlighted entry-point shape. -/
theorem c10_missing_keys_defaulted (fields : List (String × PyVal)) (f : String)
    (ns : List String) (ps : List (String × String)) :
    (fields.lookup "nodes" = none →
      convert_json_to_graphviz (wrapConfig (.dict fields)) f =
        convert_json_to_graphviz (wrapConfig (.dict (("nodes", PyVal.list []) :: fields))) f) ∧
    (fields.lookup "edges" = none →
      convert_json_to_graphviz (wrapConfig (.dict fields)) f =
        convert_json_to_graphviz (wrapConfig (.dict (("edges", PyVal.list []) :: fields))) f) ∧
    (fields.lookup "entry_point" = none →
      convert_json_to_graphviz (wrapConfig (.dict fields)) f =
        convert_json_to_graphviz (wrapConfig (.dict (("entry_point", PyVal.null) :: fields))) f) ∧
    (fields.lookup "nodes" = none → fields.lookup "edges" = none →
      fields.lookup "entry_point" = none →
      convert_json_to_graphviz (wrapConfig (.dict fields)) f = .ok (Digraph.mk f [] [])) ∧
    convert_json_to_graphviz (mkInputNoEntry ns ps) =
      .ok { format := "pdf",
            nodeCalls := ns.map (fun n => (PyVal.str n, false)),
            edgeCalls := ps.map (fun p => (PyVal.str p.1, PyVal.str p.2)) } := by
  refine ⟨?_, ?_, ?_, ?_, convert_mkInputNoEntry ns ps⟩
  · intro h
    rw [convert_wrapConfig, convert_wrapConfig]
    have e1 : (List.lookup "nodes" (("nodes", PyVal.list []) :: fields)).getD (.list [])
        = PyVal.list [] := rfl
    have e2 : List.lookup "edges" (("nodes", PyVal.list []) :: fields)
        = fields.lookup "edges" := rfl
    have e3 : List.lookup "entry_point" (("nodes", PyVal.list []) :: fields)
        = fields.lookup "entry_point" := rfl
    rw [h, e1, e2, e3]
    rfl
  · intro h
    rw [convert_wrapConfig, convert_wrapConfig]
    have e1 : (List.lookup "edges" (("edges", PyVal.list []) :: fields)).getD (.list [])
        = PyVal.list [] := rfl
    have e2 : List.lookup "nodes" (("edges", PyVal.list []) :: fields)
        = fields.lookup "nodes" := rfl
    have e3 : List.lookup "entry_point" (("edges", PyVal.list []) :: fields)
        = fields.lookup "entry_point" := rfl
    rw [h, e1, e2, e3]
    rfl
  · intro h
    rw [convert_wrapConfig, convert_wrapConfig]
    have e1 : (List.lookup "entry_point" (("entry_point", PyVal.null) :: fields)).getD .null
        = PyVal.null := rfl
    have e2 : List.lookup "nodes" (("entry_point", PyVal.null) :: fields)
        = fields.lookup "nodes" := rfl
    have e3 : List.lookup "edges" (("entry_point", PyVal.null) :: fields)
        = fields.lookup "edges" := rfl
    rw [h, e1, e2, e3]
    rfl
  · intro h1 h2 h3
    rw [convert_wrapConfig, h1, h2, h3]
    rfl

/-- Witness for C10 at the empty configuration and a one-node entry-point-free input. -/
theorem c10_witness :
    convert_json_to_graphviz (wrapConfig (.dict [])) "pdf" =
      convert_json_to_graphviz (wrapConfig (.dict [("nodes", PyVal.list [])])) "pdf" ∧
    convert_json_to_graphviz (wrapConfig (.dict [])) "pdf" =
      convert_json_to_graphviz (wrapConfig (.dict [("edges", PyVal.list [])])) "pdf" ∧
    convert_json_to_graphviz (wrapConfig (.dict [])) "pdf" =
      convert_json_to_graphviz (wrapConfig (.dict [("entry_point", PyVal.null)])) "pdf" ∧
    convert_json_to_graphviz (wrapConfig (.dict [])) "pdf" = .ok (Digraph.mk "pdf" [] []) ∧
    convert_json_to_graphviz (mkInputNoEntry ["fetch"] []) =
      .ok { format := "pdf",
            nodeCalls := ["fetch"].map (fun n => (PyVal.str n, false)),
            edgeCalls := ([] : List (String × String)).map
              (fun p => (PyVal.str p.1, PyVal.str p.2)) } :=
  ⟨(c10_missing_keys_defaulted [] "pdf" ["fetch"] []).1 rfl,
   (c10_missing_keys_defaulted [] "pdf" ["fetch"] []).2.1 rfl,
   (c10_missing_keys_defaulted [] "pdf" ["fetch"] []).2.2.1 rfl,
   (c10_missing_keys_defaulted [] "pdf" ["fetch"] []).2.2.2.1 rfl rfl rfl,
   (c10_missing_keys_defaulted [] "pdf" ["fetch"] []).2.2.2.2⟩

end GraphBuilder
